import Mathlib

/-!
# A shallow embedding of `ottoscale.py` (container autoscaler)

This file embeds the Python source of the autoscaler as executable Lean
definitions and proves the specification claims about it.

Modelling conventions:

* A **container** carries the fields the program inspects: `name`, `status`,
  the `image` it was launched from, its `labels`, and whether it was launched
  `detach`ed.
* The **world state** (`SysState`) holds the Docker-side inventory
  (`containers`, in the order the runtime's listing returns them), whether the
  Docker client handle was initialised (`client`; `False` models
  `docker_client = None`), a stream `times` of timestamps returned by
  successive `datetime.now()` calls, a stream `faults` of outcomes of the
  successive *mutating* runtime calls (`containers.run`, `container.stop`,
  `container.remove`) — head is consumed per call, an empty stream means every
  call succeeds — and an append-only log `events` of the mutations actually
  performed.
* Python exceptions become the `Err` type and `Except`; a function returns its
  `Except` result together with the state as mutated up to the raise (no
  rollback, matching the source).
* Python `str.startswith` is modelled on the sequence of code points
  (`strStartsWith`), and Python `int(...)` applied to the JSON `count` value
  is `pyInt` (integers pass through, strings are parsed as an optional sign
  followed by digits, anything unparsable raises `ValueError`).
* Listing errors swallowed by `get_managed_containers`'s `try/except` are not
  modelled separately: the only modelled degraded path is the absent client
  handle, which the source coerces to an empty listing.
-/

/-- A container record as the program sees it through the Docker API. -/
structure Container where
  name : String
  status : String
  image : String
  labels : List (String × String)
  detach : Bool
deriving Repr, DecidableEq

/-- The exceptions the program can raise (messages elided). -/
inductive Err where
  /-- `Exception("Docker client not available")` -/
  | dockerUnavailable
  /-- `Exception("No running containers to remove")` -/
  | noRunningContainers
  /-- a failing `docker_client.containers.run(...)` call -/
  | createFailed
  /-- a failing `container.stop(...)` or `container.remove()` call -/
  | removeFailed
  /-- `ValueError` from `int(...)` on an unparsable `count` value -/
  | valueError
deriving Repr, DecidableEq

/-- Log entry for a mutating runtime call that actually happened. -/
inductive Event where
  | create (c : Container)
  | stop (name : String) (timeout : Nat)
  | remove (name : String)
deriving Repr, DecidableEq

/-- The process-wide configuration read from the environment at startup. -/
structure Config where
  CONTAINER_IMAGE : String
  /-- `CONTAINER_PREFIX` in the source. -/
  pfx : String
  MIN_CONTAINERS : Int
  MAX_CONTAINERS : Int
deriving Repr

/-- The world the program interacts with. -/
structure SysState where
  /-- whether `docker_client` is non-`None` -/
  client : Bool
  /-- the runtime's inventory, in listing order -/
  containers : List Container
  /-- outcomes of future mutating runtime calls; head consumed per call,
  exhausted stream defaults to success -/
  faults : List Bool
  /-- timestamps returned by successive `datetime.now()` calls -/
  times : List Nat
  /-- append-only log of performed mutations -/
  events : List Event
deriving Repr, DecidableEq

/-- Python `s.startswith(pre)`, on the sequence of code points. -/
def strStartsWith (s pre : String) : Bool :=
  pre.data.isPrefixOf s.data

/-- Consume the next mutating-call outcome. -/
def popFault (st : SysState) : Bool × SysState :=
  (st.faults.headD true, { st with faults := st.faults.tail })

/-- Consume the next `datetime.now()` timestamp. -/
def popTime (st : SysState) : Nat × SysState :=
  (st.times.headD 0, { st with times := st.times.tail })

/-- `get_managed_containers()`: all containers (any status) whose name starts
with the configured prefix; `[]` when the client handle is absent. -/
def get_managed_containers (cfg : Config) (st : SysState) : List Container :=
  if st.client then
    st.containers.filter (fun c => strStartsWith c.name cfg.pfx)
  else []

/-- `get_running_count()`: number of managed containers whose status is
`running`. -/
def get_running_count (cfg : Config) (st : SysState) : Nat :=
  ((get_managed_containers cfg st).filter (fun c => c.status == "running")).length

/-- The combined predicate "running and prefix-matching", in the orientation
produced by composing the two filters of the source. -/
def isRunningManaged (cfg : Config) (c : Container) : Bool :=
  (c.status == "running") && strStartsWith c.name cfg.pfx

/-- `create_container()`: raise if the client is absent; otherwise name the
container `{prefix}_{N+1}_{timestamp}` with `N` the number of managed
containers of any status, and launch it detached with the configured image and
the `managed_by` label. A failing `run` call mutates nothing. -/
def create_container (cfg : Config) (st : SysState) :
    Except Err Container × SysState :=
  if !st.client then (.error .dockerUnavailable, st)
  else
    let count := (get_managed_containers cfg st).length
    let (t, st1) := popTime st
    let container_name := cfg.pfx ++ "_" ++ toString (count + 1) ++ "_" ++ toString t
    let (ok, st2) := popFault st1
    if ok then
      let c : Container :=
        { name := container_name, status := "running",
          image := cfg.CONTAINER_IMAGE,
          labels := [("managed_by", "auto_scaler")], detach := true }
      (.ok c, { st2 with containers := st2.containers ++ [c],
                         events := st2.events ++ [.create c] })
    else (.error .createFailed, st2)

/-- Replace the first element satisfying `q` by the block `f` of it (deletion
for `f _ = []`, in-place update for `f c = [c']`); identity when no element
satisfies `q`. -/
def replaceFirstP (q : Container → Bool) (f : Container → List Container) :
    List Container → List Container
  | [] => []
  | c :: cs => if q c then f c ++ cs else c :: replaceFirstP q f cs

/-- Replace the *last* element satisfying `q` by the block `f` of it. The
victim of `remove_container` is `containers[-1]` of the running-filtered
listing, i.e. exactly the last element of the inventory satisfying
`isRunningManaged`; stopping or deleting that container is an update at that
position. -/
def replaceLastP (q : Container → Bool) (f : Container → List Container)
    (l : List Container) : List Container :=
  (replaceFirstP q (fun c => (f c).reverse) l.reverse).reverse

/-- `remove_container()`: raise if the client is absent; raise
`NoRunningContainers` (mutating nothing) when no running managed container
exists; otherwise take the last element of the running-filtered listing, stop
it with grace timeout `10`, then remove it. A failing `stop` mutates nothing;
a failing `remove` leaves the container stopped (status `exited`); the
successful composition of `stop` then `remove` at the victim's position is the
deletion of that position. -/
def remove_container (cfg : Config) (st : SysState) :
    Except Err String × SysState :=
  if !st.client then (.error .dockerUnavailable, st)
  else
    let containers :=
      (get_managed_containers cfg st).filter (fun c => c.status == "running")
    match containers.getLast? with
    | none => (.error .noRunningContainers, st)
    | some container =>
      let (ok1, st1) := popFault st
      if !ok1 then (.error .removeFailed, st1)
      else
        let (ok2, st2) := popFault st1
        if !ok2 then
          (.error .removeFailed,
           { st2 with
              containers := replaceLastP (isRunningManaged cfg)
                (fun c => [{ c with status := "exited" }]) st2.containers,
              events := st2.events ++ [.stop container.name 10] })
        else
          (.ok container.name,
           { st2 with
              containers := replaceLastP (isRunningManaged cfg)
                (fun _ => []) st2.containers,
              events := st2.events ++
                [.stop container.name 10, .remove container.name] })

/-- The body of `for _ in range(n): create_container()`. -/
def createLoop (cfg : Config) : Nat → SysState → Except Err Unit × SysState
  | 0, st => (.ok (), st)
  | n + 1, st =>
    match create_container cfg st with
    | (.ok _, st') => createLoop cfg n st'
    | (.error e, st') => (.error e, st')

/-- The body of `for _ in range(abs(diff)): remove_container()`. -/
def removeLoop (cfg : Config) : Nat → SysState → Except Err Unit × SysState
  | 0, st => (.ok (), st)
  | n + 1, st =>
    match remove_container cfg st with
    | (.ok _, st') => removeLoop cfg n st'
    | (.error e, st') => (.error e, st')

/-- The JSON value found under `"count"` in a `/scale/set` request body. -/
inductive ReqVal where
  | vint (n : Int)
  | vstr (s : String)
deriving Repr, DecidableEq

/-- Decimal digits folded into a number; `none` when the list is empty or a
non-digit occurs. -/
def decDigits? (cs : List Char) : Option Nat :=
  match cs with
  | [] => none
  | _ => cs.foldl (fun acc c => acc.bind (fun n =>
      if c.isDigit then some (n * 10 + (c.toNat - 48)) else none)) (some 0)

/-- Python `int(...)` on a string, on the code-point sequence: an optional
sign followed by decimal digits (surrounding whitespace and underscore
grouping are not modelled); `none` models the raised `ValueError`. -/
def pyStrToInt? (s : String) : Option Int :=
  match s.data with
  | '-' :: cs => (decDigits? cs).map (fun n => -(n : Int))
  | '+' :: cs => (decDigits? cs).map (fun n => (n : Int))
  | cs => (decDigits? cs).map (fun n => (n : Int))

/-- Python `int(...)` on the `count` value: integers pass through, strings are
parsed; `none` models the raised `ValueError`. -/
def pyInt : ReqVal → Option Int
  | .vint n => some n
  | .vstr s => pyStrToInt? s

/-- Response of the `/scale/up` handler. -/
inductive UpResp where
  | success (container_name : String) (previous_count current_count : Nat)
  | atMax (current_count : Nat)
  | err (e : Err)
deriving Repr, DecidableEq

/-- HTTP status code of a `/scale/up` response. -/
def UpResp.code : UpResp → Nat
  | .success _ _ _ => 200
  | .atMax _ => 400
  | .err _ => 500

/-- Response of the `/scale/down` handler. -/
inductive DownResp where
  | success (removed_container : String) (previous_count current_count : Nat)
  | atMin (current_count : Nat)
  | err (e : Err)
deriving Repr, DecidableEq

/-- HTTP status code of a `/scale/down` response. -/
def DownResp.code : DownResp → Nat
  | .success _ _ _ => 200
  | .atMin _ => 400
  | .err _ => 500

/-- Response of the `/scale/set` handler. -/
inductive SetResp where
  | missingCount
  | outOfRange
  | success (previous_count current_count : Nat)
  | err (e : Err)
deriving Repr, DecidableEq

/-- HTTP status code of a `/scale/set` response. -/
def SetResp.code : SetResp → Nat
  | .missingCount => 400
  | .outOfRange => 400
  | .success _ _ => 200
  | .err _ => 500

/-- The `/scale/up` handler `scale_up()`. -/
def scale_up (cfg : Config) (st : SysState) : UpResp × SysState :=
  let current := get_running_count cfg st
  if (current : Int) ≥ cfg.MAX_CONTAINERS then (.atMax current, st)
  else
    match create_container cfg st with
    | (.ok c, st') => (.success c.name current (get_running_count cfg st'), st')
    | (.error e, st') => (.err e, st')

/-- The `/scale/down` handler `scale_down()`. -/
def scale_down (cfg : Config) (st : SysState) : DownResp × SysState :=
  let current := get_running_count cfg st
  if (current : Int) ≤ cfg.MIN_CONTAINERS then (.atMin current, st)
  else
    match remove_container cfg st with
    | (.ok name, st') =>
      (.success name current (get_running_count cfg st'), st')
    | (.error e, st') => (.err e, st')

/-- The `/scale/set` handler `scale_set()`; `count?` is `data.get('count')`. -/
def scale_set (cfg : Config) (count? : Option ReqVal) (st : SysState) :
    SetResp × SysState :=
  match count? with
  | none => (.missingCount, st)
  | some v =>
    match pyInt v with
    | none => (.err .valueError, st)
    | some target_count =>
      if target_count < cfg.MIN_CONTAINERS ∨ target_count > cfg.MAX_CONTAINERS then
        (.outOfRange, st)
      else
        let current := get_running_count cfg st
        let diff : Int := target_count - current
        if diff > 0 then
          match createLoop cfg diff.toNat st with
          | (.ok _, st') => (.success current (get_running_count cfg st'), st')
          | (.error e, st') => (.err e, st')
        else if diff < 0 then
          match removeLoop cfg diff.natAbs st with
          | (.ok _, st') => (.success current (get_running_count cfg st'), st')
          | (.error e, st') => (.err e, st')
        else (.success current (get_running_count cfg st), st)

/-- Number of `create` events in a log. -/
def countCreates (es : List Event) : Nat :=
  es.countP (fun e => match e with | .create _ => true | _ => false)

/-- Number of `remove` events in a log. -/
def countRemoves (es : List Event) : Nat :=
  es.countP (fun e => match e with | .remove _ => true | _ => false)

/-- The container record `create_container` builds from state `st`. -/
def mkCreated (cfg : Config) (st : SysState) : Container :=
  { name := cfg.pfx ++ "_" ++ toString ((get_managed_containers cfg st).length + 1)
      ++ "_" ++ toString (st.times.headD 0),
    status := "running", image := cfg.CONTAINER_IMAGE,
    labels := [("managed_by", "auto_scaler")], detach := true }

/-! ### Concrete sample configurations and states (used by witnesses) -/

/-- The default configuration of the source (`nginx:alpine`, prefix
`scaled_app`, MIN 1, MAX 10). -/
def cfgW : Config :=
  { CONTAINER_IMAGE := "nginx:alpine", pfx := "scaled_app",
    MIN_CONTAINERS := 1, MAX_CONTAINERS := 10 }

/-- A configuration whose bounds pin the sample state at both limits. -/
def cfgTight : Config :=
  { CONTAINER_IMAGE := "nginx:alpine", pfx := "scaled_app",
    MIN_CONTAINERS := 2, MAX_CONTAINERS := 2 }

/-- A (pathological but accepted) configuration with a negative minimum. -/
def cfgNeg : Config :=
  { CONTAINER_IMAGE := "nginx:alpine", pfx := "scaled_app",
    MIN_CONTAINERS := -5, MAX_CONTAINERS := 10 }

/-- A sample container with the fixed image and ownership label. -/
def sampleC (n s : String) : Container :=
  { name := n, status := s, image := "nginx:alpine",
    labels := [("managed_by", "auto_scaler")], detach := true }

/-- Two running managed containers, one exited managed one, one foreign one;
every runtime call succeeds. -/
def stW : SysState :=
  { client := true,
    containers := [sampleC "scaled_app_1_1" "running",
                   sampleC "other_1" "running",
                   sampleC "scaled_app_2_2" "exited",
                   sampleC "scaled_app_3_3" "running"],
    faults := [], times := [42, 43, 44], events := [] }

/-- `stW` where the second mutating runtime call fails. -/
def stWA : SysState := { stW with faults := [true, false] }

/-- `stW` where the first mutating runtime call fails. -/
def stWB : SysState := { stW with faults := [false] }

/-- `stW` in disconnected mode (no Docker client handle). -/
def stDisc : SysState := { stW with client := false }

/-- A single running managed container; every runtime call succeeds. -/
def stOne : SysState :=
  { client := true, containers := [sampleC "scaled_app_1_1" "running"],
    faults := [], times := [], events := [] }

/-- One managed container, but exited: nothing is running. -/
def stEmpty : SysState :=
  { client := true, containers := [sampleC "scaled_app_9_9" "exited"],
    faults := [], times := [], events := [] }

/-! ## Basic bridging lemmas -/

theorem strStartsWith_append (p s : String) : strStartsWith (p ++ s) p = true := by
  simp [strStartsWith, List.isPrefixOf_iff_prefix, String.data_append]

theorem strStartsWith_append4 (p a b c d : String) :
    strStartsWith (p ++ a ++ b ++ c ++ d) p = true := by
  simp only [strStartsWith, List.isPrefixOf_iff_prefix, String.data_append,
    decide_eq_true_eq, List.append_assoc]
  exact List.prefix_append _ _

theorem get_managed_eq (cfg : Config) (st : SysState) (h : st.client = true) :
    get_managed_containers cfg st =
      st.containers.filter (fun c => strStartsWith c.name cfg.pfx) := by
  simp [get_managed_containers, h]

theorem running_filter_eq (cfg : Config) (st : SysState) (h : st.client = true) :
    (get_managed_containers cfg st).filter (fun c => c.status == "running") =
      st.containers.filter (isRunningManaged cfg) := by
  rw [get_managed_eq cfg st h, List.filter_filter]
  rfl

theorem get_running_count_eq_countP (cfg : Config) (st : SysState)
    (h : st.client = true) :
    get_running_count cfg st = st.containers.countP (isRunningManaged cfg) := by
  rw [get_running_count, running_filter_eq cfg st h, List.countP_eq_length_filter]

theorem get_running_count_disconnected (cfg : Config) (st : SysState)
    (h : st.client = false) : get_running_count cfg st = 0 := by
  simp [get_running_count, get_managed_containers, h]

/-! ## Decomposition of the victim position -/

theorem head?_filter_decomp (q : Container → Bool) :
    ∀ (l : List Container) (x : Container), (l.filter q).head? = some x →
    ∃ A B, l = A ++ x :: B ∧ (∀ c ∈ A, q c = false) ∧ q x = true ∧
      ∀ f, replaceFirstP q f l = A ++ f x ++ B
  | [], x, h => by simp at h
  | c :: cs, x, h => by
    by_cases hq : q c
    · refine ⟨[], cs, ?_, by simp, ?_, ?_⟩
      · simp only [List.filter_cons, hq, if_true, List.head?_cons,
          Option.some.injEq] at h
        simp [← h]
      · simp only [List.filter_cons, hq, if_true, List.head?_cons,
          Option.some.injEq] at h
        rw [← h]; exact hq
      · intro f
        simp only [List.filter_cons, hq, if_true, List.head?_cons,
          Option.some.injEq] at h
        simp [replaceFirstP, ← h, hq]
    · have h' : (cs.filter q).head? = some x := by
        simpa [List.filter_cons, hq] using h
      obtain ⟨A, B, hl, hA, hx, hrep⟩ := head?_filter_decomp q cs x h'
      refine ⟨c :: A, B, by simp [hl], ?_, hx, ?_⟩
      · intro d hd
        rcases List.mem_cons.mp hd with rfl | hd
        · simpa using hq
        · exact hA d hd
      · intro f
        simp [replaceFirstP, hq, hrep f]

theorem getLast?_filter_decomp (q : Container → Bool) (l : List Container)
    (x : Container) (h : (l.filter q).getLast? = some x) :
    ∃ A B, l = A ++ x :: B ∧ (∀ c ∈ B, q c = false) ∧ q x = true ∧
      ∀ f, replaceLastP q f l = A ++ f x ++ B := by
  have h' : (l.reverse.filter q).head? = some x := by
    rw [List.filter_reverse, List.head?_reverse]
    exact h
  obtain ⟨A, B, hl, hA, hx, hrep⟩ := head?_filter_decomp q l.reverse x h'
  refine ⟨B.reverse, A.reverse, ?_, ?_, hx, ?_⟩
  · have := congrArg List.reverse hl
    simpa [List.reverse_append] using this
  · intro c hc
    exact hA c (List.mem_reverse.mp hc)
  · intro f
    rw [replaceLastP, hrep (fun c => (f c).reverse)]
    simp [List.reverse_append]

/-! ## Step lemmas for the lifecycle operations -/

theorem isRunningManaged_mkCreated (cfg : Config) (st : SysState) :
    isRunningManaged cfg (mkCreated cfg st) = true := by
  simp [isRunningManaged, mkCreated, strStartsWith_append4]

theorem create_container_ok (cfg : Config) (st : SysState)
    (hc : st.client = true) (hok : st.faults.headD true = true) :
    create_container cfg st =
      (.ok (mkCreated cfg st),
       { st with containers := st.containers ++ [mkCreated cfg st],
                 faults := st.faults.tail, times := st.times.tail,
                 events := st.events ++ [.create (mkCreated cfg st)] }) := by
  rw [List.headD_eq_head?_getD] at hok
  simp [create_container, hc, popTime, popFault, hok, mkCreated]

theorem create_container_fail (cfg : Config) (st : SysState)
    (hc : st.client = true) (hok : st.faults.headD true = false) :
    create_container cfg st =
      (.error .createFailed,
       { st with faults := st.faults.tail, times := st.times.tail }) := by
  rw [List.headD_eq_head?_getD] at hok
  simp [create_container, hc, popTime, popFault, hok]

theorem remove_container_ok (cfg : Config) (st : SysState) (x : Container)
    (hc : st.client = true)
    (hx : (st.containers.filter (isRunningManaged cfg)).getLast? = some x)
    (h1 : st.faults.headD true = true) (h2 : st.faults.tail.headD true = true) :
    ∃ A B, st.containers = A ++ x :: B ∧
      (∀ c ∈ B, isRunningManaged cfg c = false) ∧
      isRunningManaged cfg x = true ∧
      remove_container cfg st =
        (.ok x.name,
         { st with containers := A ++ B, faults := st.faults.tail.tail,
                   events := st.events ++ [.stop x.name 10, .remove x.name] }) := by
  obtain ⟨A, B, hl, hB, hqx, hrep⟩ := getLast?_filter_decomp _ _ _ hx
  refine ⟨A, B, hl, hB, hqx, ?_⟩
  have hx' : ((get_managed_containers cfg st).filter
      (fun c => c.status == "running")).getLast? = some x := by
    rw [running_filter_eq cfg st hc]; exact hx
  rw [List.headD_eq_head?_getD] at h1 h2
  rw [List.head?_tail] at h2
  simp only [remove_container, hc, Bool.not_true, Bool.false_eq_true, if_false,
    hx', popFault, h1, h2, Bool.not_true, if_false]
  simp [hrep, h1, h2]

theorem remove_container_noRunning (cfg : Config) (st : SysState)
    (hc : st.client = true)
    (hx : (get_managed_containers cfg st).filter
      (fun c => c.status == "running") = []) :
    remove_container cfg st = (.error .noRunningContainers, st) := by
  simp [remove_container, hc, hx]

theorem remove_container_stopFail (cfg : Config) (st : SysState) (x : Container)
    (hc : st.client = true)
    (hx : (st.containers.filter (isRunningManaged cfg)).getLast? = some x)
    (h1 : st.faults.headD true = false) :
    remove_container cfg st =
      (.error .removeFailed, { st with faults := st.faults.tail }) := by
  have hx' : ((get_managed_containers cfg st).filter
      (fun c => c.status == "running")).getLast? = some x := by
    rw [running_filter_eq cfg st hc]; exact hx
  rw [List.headD_eq_head?_getD] at h1
  simp [remove_container, hc, hx', popFault, h1]

theorem remove_container_removeFail (cfg : Config) (st : SysState)
    (x : Container) (hc : st.client = true)
    (hx : (st.containers.filter (isRunningManaged cfg)).getLast? = some x)
    (h1 : st.faults.headD true = true)
    (h2 : st.faults.tail.headD true = false) :
    ∃ A B, st.containers = A ++ x :: B ∧
      (∀ c ∈ B, isRunningManaged cfg c = false) ∧
      isRunningManaged cfg x = true ∧
      remove_container cfg st =
        (.error .removeFailed,
         { st with containers := A ++ { x with status := "exited" } :: B,
                   faults := st.faults.tail.tail,
                   events := st.events ++ [.stop x.name 10] }) := by
  obtain ⟨A, B, hl, hB, hqx, hrep⟩ := getLast?_filter_decomp _ _ _ hx
  refine ⟨A, B, hl, hB, hqx, ?_⟩
  have hx' : ((get_managed_containers cfg st).filter
      (fun c => c.status == "running")).getLast? = some x := by
    rw [running_filter_eq cfg st hc]; exact hx
  rw [List.headD_eq_head?_getD] at h1
  rw [List.headD_eq_head?_getD, List.head?_tail] at h2
  simp only [remove_container, hc, Bool.not_true, Bool.false_eq_true, if_false,
    hx', popFault, h1, h2]
  simp [hrep, h1, h2]

theorem remove_container_disconnected (cfg : Config) (st : SysState)
    (hc : st.client = false) :
    remove_container cfg st = (.error .dockerUnavailable, st) := by
  simp [remove_container, hc]

/-! ## Loop lemmas: the `for` loops inside `scale_set` -/

theorem createLoop_ok (cfg : Config) (n : Nat) :
    ∀ st : SysState, st.client = true → st.faults = [] →
    ∃ new : List Container, new.length = n ∧
      (∀ c ∈ new, isRunningManaged cfg c = true) ∧
      createLoop cfg n st =
        (.ok (), { st with containers := st.containers ++ new,
                           times := st.times.drop n,
                           events := st.events ++ new.map .create }) := by
  induction n with
  | zero =>
    intro st hc hf
    exact ⟨[], rfl, by simp, by simp [createLoop]⟩
  | succ n ih =>
    intro st hc hf
    have hok : st.faults.headD true = true := by rw [hf]; rfl
    have hstep := create_container_ok cfg st hc hok
    rw [hf] at hstep
    obtain ⟨new, hlen, hall, hloop⟩ := ih
      { st with containers := st.containers ++ [mkCreated cfg st],
                faults := [], times := st.times.tail,
                events := st.events ++ [.create (mkCreated cfg st)] }
      hc rfl
    refine ⟨mkCreated cfg st :: new, by simp [hlen], ?_, ?_⟩
    · intro c hcm
      rcases List.mem_cons.mp hcm with rfl | hm
      · exact isRunningManaged_mkCreated cfg st
      · exact hall c hm
    · rw [createLoop, hstep]
      simp only [List.tail_nil]
      rw [hloop]
      have ht : st.times.tail.drop n = st.times.drop (n + 1) := by
        rw [← List.drop_one, List.drop_drop, Nat.add_comm]
      simp [hf, ht, List.append_assoc]

theorem removeLoop_ok (cfg : Config) (n : Nat) :
    ∀ st : SysState, st.client = true → st.faults = [] →
    n ≤ st.containers.countP (isRunningManaged cfg) →
    ∃ st', removeLoop cfg n st = (.ok (), st') ∧
      st'.client = true ∧ st'.faults = [] ∧ st'.times = st.times ∧
      st'.containers.countP (isRunningManaged cfg) + n =
        st.containers.countP (isRunningManaged cfg) ∧
      st'.containers.length + n = st.containers.length ∧
      countCreates st'.events = countCreates st.events ∧
      countRemoves st'.events = countRemoves st.events + n ∧
      st'.containers.filter (fun c => !strStartsWith c.name cfg.pfx) =
        st.containers.filter (fun c => !strStartsWith c.name cfg.pfx) := by
  induction n with
  | zero =>
    intro st hc hf _
    exact ⟨st, by simp [removeLoop], hc, hf, rfl, by simp, by simp, rfl, rfl, rfl⟩
  | succ n ih =>
    intro st hc hf hcount
    have hne : st.containers.filter (isRunningManaged cfg) ≠ [] := by
      intro h0
      rw [List.countP_eq_length_filter, h0] at hcount
      simp at hcount
    obtain ⟨x, hx⟩ : ∃ x,
        (st.containers.filter (isRunningManaged cfg)).getLast? = some x := by
      cases h' : (st.containers.filter (isRunningManaged cfg)).getLast? with
      | none => exact absurd (List.getLast?_eq_none_iff.mp h') hne
      | some x => exact ⟨x, rfl⟩
    have h1 : st.faults.headD true = true := by rw [hf]; rfl
    have h2 : st.faults.tail.headD true = true := by rw [hf]; rfl
    obtain ⟨A, B, hl, hB, hqx, hstep⟩ :=
      remove_container_ok cfg st x hc hx h1 h2
    rw [hf] at hstep
    have hpfx : strStartsWith x.name cfg.pfx = true := by
      have := hqx
      rw [isRunningManaged, Bool.and_eq_true] at this
      exact this.2
    have hcount' : st.containers.countP (isRunningManaged cfg) =
        (A ++ B).countP (isRunningManaged cfg) + 1 := by
      rw [hl]
      simp [List.countP_append, List.countP_cons, hqx]
      omega
    obtain ⟨st', hloop, hc', hf', ht', hcnt', hlen', hcc', hcr', hnp'⟩ := ih
      { st with containers := A ++ B, faults := [],
                events := st.events ++ [.stop x.name 10, .remove x.name] }
      hc rfl (by
        show n ≤ (A ++ B).countP (isRunningManaged cfg)
        omega)
    refine ⟨st', ?_, hc', hf', by simpa using ht', ?_, ?_, ?_, ?_, ?_⟩
    · rw [removeLoop, hstep]
      simpa using hloop
    · simp only at hcnt'
      omega
    · have : (A ++ B).length + 1 = st.containers.length := by
        rw [hl]; simp; omega
      simp only at hlen'
      omega
    · rw [hcc']
      simp [countCreates, List.countP_append]
    · rw [hcr']
      simp only
      simp [countRemoves, List.countP_append]
      omega
    · rw [hnp']
      simp only
      rw [hl]
      simp [List.filter_append, hpfx]

theorem createLoop_partial (cfg : Config) (k : Nat) :
    ∀ (n : Nat) (st : SysState) (rest : List Bool), st.client = true →
    st.faults = List.replicate k true ++ false :: rest → k < n →
    ∃ new : List Container, new.length = k ∧
      createLoop cfg n st =
        (.error .createFailed,
         { st with containers := st.containers ++ new, faults := rest,
                   times := st.times.drop (k + 1),
                   events := st.events ++ new.map .create }) := by
  induction k with
  | zero =>
    intro n st rest hc hf hk
    match n, hk with
    | n + 1, _ =>
      have hok : st.faults.headD true = false := by rw [hf]; rfl
      have hstep := create_container_fail cfg st hc hok
      rw [hf] at hstep
      refine ⟨[], rfl, ?_⟩
      rw [createLoop, hstep]
      simp [List.drop_one]
  | succ k ih =>
    intro n st rest hc hf hk
    match n, hk with
    | n + 1, hk =>
      have hok : st.faults.headD true = true := by
        rw [hf]; simp [List.replicate_succ]
      have hstep := create_container_ok cfg st hc hok
      rw [hf] at hstep
      simp only [List.replicate_succ, List.cons_append, List.tail_cons] at hstep
      obtain ⟨new, hlen, hloop⟩ := ih n
        { st with containers := st.containers ++ [mkCreated cfg st],
                  faults := List.replicate k true ++ false :: rest,
                  times := st.times.tail,
                  events := st.events ++ [.create (mkCreated cfg st)] }
        rest hc rfl (by omega)
      refine ⟨mkCreated cfg st :: new, by simp [hlen], ?_⟩
      rw [createLoop, hstep]
      dsimp only
      rw [hloop]
      have ht : st.times.tail.drop (k + 1) = st.times.drop (k + 1 + 1) := by
        rw [← List.drop_one, List.drop_drop, Nat.add_comm]
      simp [ht, List.append_assoc]

theorem removeLoop_partial (cfg : Config) (k : Nat) :
    ∀ (n : Nat) (st : SysState) (rest : List Bool), st.client = true →
    st.faults = List.replicate (2 * k) true ++ false :: rest → k < n →
    k < st.containers.countP (isRunningManaged cfg) →
    ∃ st', removeLoop cfg n st = (.error .removeFailed, st') ∧
      st'.client = true ∧ st'.faults = rest ∧ st'.times = st.times ∧
      st'.containers.countP (isRunningManaged cfg) + k =
        st.containers.countP (isRunningManaged cfg) ∧
      st'.containers.length + k = st.containers.length ∧
      countRemoves st'.events = countRemoves st.events + k ∧
      countCreates st'.events = countCreates st.events := by
  induction k with
  | zero =>
    intro n st rest hc hf hk hcount
    match n, hk with
    | n + 1, _ =>
      have hne : st.containers.filter (isRunningManaged cfg) ≠ [] := by
        intro h0
        rw [List.countP_eq_length_filter, h0] at hcount
        simp at hcount
      obtain ⟨x, hx⟩ : ∃ x,
          (st.containers.filter (isRunningManaged cfg)).getLast? = some x := by
        cases h' : (st.containers.filter (isRunningManaged cfg)).getLast? with
        | none => exact absurd (List.getLast?_eq_none_iff.mp h') hne
        | some x => exact ⟨x, rfl⟩
      have h1 : st.faults.headD true = false := by rw [hf]; rfl
      have hstep := remove_container_stopFail cfg st x hc hx h1
      rw [hf] at hstep
      refine ⟨{ st with faults := rest }, ?_, hc, rfl, rfl, by simp, by simp,
        by simp, by simp⟩
      rw [removeLoop, hstep]
      rfl
  | succ k ih =>
    intro n st rest hc hf hk hcount
    match n, hk with
    | n + 1, hk =>
      have hf2 : st.faults =
          true :: true :: (List.replicate (2 * k) true ++ false :: rest) := by
        rw [hf]
        have h2k : 2 * (k + 1) = 2 * k + 1 + 1 := by omega
        rw [h2k, List.replicate_succ, List.replicate_succ]
        simp
      have hne : st.containers.filter (isRunningManaged cfg) ≠ [] := by
        intro h0
        rw [List.countP_eq_length_filter, h0] at hcount
        simp at hcount
      obtain ⟨x, hx⟩ : ∃ x,
          (st.containers.filter (isRunningManaged cfg)).getLast? = some x := by
        cases h' : (st.containers.filter (isRunningManaged cfg)).getLast? with
        | none => exact absurd (List.getLast?_eq_none_iff.mp h') hne
        | some x => exact ⟨x, rfl⟩
      have h1 : st.faults.headD true = true := by rw [hf2]; rfl
      have h2 : st.faults.tail.headD true = true := by rw [hf2]; rfl
      obtain ⟨A, B, hl, hB, hqx, hstep⟩ :=
        remove_container_ok cfg st x hc hx h1 h2
      rw [hf2] at hstep
      simp only [List.tail_cons] at hstep
      have hcount' : st.containers.countP (isRunningManaged cfg) =
          (A ++ B).countP (isRunningManaged cfg) + 1 := by
        rw [hl]
        simp [List.countP_append, List.countP_cons, hqx]
        omega
      obtain ⟨st', hloop, hc', hf', ht', hcnt', hlen', hcr', hcc'⟩ := ih n
        { st with containers := A ++ B,
                  faults := List.replicate (2 * k) true ++ false :: rest,
                  events := st.events ++ [.stop x.name 10, .remove x.name] }
        rest hc rfl (by omega)
        (by
          show k < (A ++ B).countP (isRunningManaged cfg)
          omega)
      refine ⟨st', ?_, hc', hf', by simpa using ht', ?_, ?_, ?_, ?_⟩
      · rw [removeLoop, hstep]
        dsimp only
        exact hloop
      · simp only at hcnt'
        omega
      · have hl' : (A ++ B).length + 1 = st.containers.length := by
          rw [hl]; simp; omega
        simp only at hlen'
        omega
      · rw [hcr']
        simp only
        simp [countRemoves, List.countP_append]
        omega
      · rw [hcc']
        simp [countCreates, List.countP_append]

/-! ## Event-count helpers -/

theorem countCreates_append (es fs : List Event) :
    countCreates (es ++ fs) = countCreates es + countCreates fs :=
  List.countP_append ..

theorem countRemoves_append (es fs : List Event) :
    countRemoves (es ++ fs) = countRemoves es + countRemoves fs :=
  List.countP_append ..

theorem countCreates_map_create (new : List Container) :
    countCreates (new.map .create) = new.length := by
  rw [countCreates, List.countP_map]
  exact List.countP_eq_length.mpr (fun a _ => rfl)

theorem countRemoves_map_create (new : List Container) :
    countRemoves (new.map .create) = 0 := by
  rw [countRemoves, List.countP_map]
  simp [Function.comp]
section C1

/-- **C1** (amended: the configured minimum is additionally assumed
nonnegative). For every in-bounds integer target, `scale_set` reads the
current count once, and when every runtime call succeeds it performs exactly
`target - current` creates when the delta is positive, exactly
`current - target` removes when it is negative, and no operation when the
delta is zero, returning success with
`previous_count = current` and `current_count = target`. -/
theorem scale_set_delta_reconciliation (cfg : Config) (st : SysState)
    (target : Int) (hclient : st.client = true) (hfaults : st.faults = [])
    (hmin0 : 0 ≤ cfg.MIN_CONTAINERS)
    (hlo : cfg.MIN_CONTAINERS ≤ target) (hhi : target ≤ cfg.MAX_CONTAINERS) :
    ∃ st', scale_set cfg (some (.vint target)) st =
        (.success (get_running_count cfg st) target.toNat, st') ∧
      countCreates st'.events = countCreates st.events +
        (target - (get_running_count cfg st : Int)).toNat ∧
      countRemoves st'.events = countRemoves st.events +
        ((get_running_count cfg st : Int) - target).toNat ∧
      (target = (get_running_count cfg st : Int) → st' = st) := by
  have hbound : ¬(target < cfg.MIN_CONTAINERS ∨ target > cfg.MAX_CONTAINERS) := by
    omega
  have hcntP := get_running_count_eq_countP cfg st hclient
  set current := get_running_count cfg st with hcur
  rcases lt_trichotomy (target - (current : Int)) 0 with hneg | hzero | hpos
  · -- remove direction
    have hn : ((target - (current : Int)).natAbs) ≤
        st.containers.countP (isRunningManaged cfg) := by omega
    obtain ⟨st', hloop, hc', hf', ht', hcnt', hlen', hcc', hcr', hnp'⟩ :=
      removeLoop_ok cfg (target - (current : Int)).natAbs st hclient hfaults hn
    have hrc : get_running_count cfg st' = target.toNat := by
      rw [get_running_count_eq_countP cfg st' hc']
      omega
    refine ⟨st', ?_, ?_, ?_, ?_⟩
    · simp only [scale_set, pyInt]
      rw [if_neg hbound]
      rw [if_neg (by omega : ¬(target - (current : Int) > 0))]
      rw [if_pos hneg]
      rw [hloop]
      dsimp only
      rw [hrc]
    · omega
    · omega
    · intro h; omega
  · -- zero delta
    refine ⟨st, ?_, by omega, by omega, fun _ => rfl⟩
    simp only [scale_set, pyInt]
    rw [if_neg hbound]
    rw [if_neg (by omega : ¬(target - (current : Int) > 0))]
    rw [if_neg (by omega : ¬(target - (current : Int) < 0))]
    have : target.toNat = current := by omega
    rw [this]
  · -- create direction
    obtain ⟨new, hlen, hall, hloop⟩ :=
      createLoop_ok cfg (target - (current : Int)).toNat st hclient hfaults
    have hrc : get_running_count cfg
        { st with containers := st.containers ++ new,
                  times := st.times.drop (target - (current : Int)).toNat,
                  events := st.events ++ new.map .create } = target.toNat := by
      rw [get_running_count_eq_countP _ _ (by simpa using hclient)]
      have hnewc : new.countP (isRunningManaged cfg) = new.length :=
        List.countP_eq_length.mpr hall
      simp only [List.countP_append]
      omega
    refine ⟨{ st with containers := st.containers ++ new, times := st.times.drop (target - (current : Int)).toNat, events := st.events ++ new.map .create }, ?_, ?_, ?_, ?_⟩
    · simp only [scale_set, pyInt]
      rw [if_neg hbound]
      rw [if_pos hpos]
      rw [hloop]
      dsimp only
      rw [hrc]
    · show countCreates (st.events ++ new.map .create) =
        countCreates st.events + (target - (current : Int)).toNat
      rw [countCreates_append, countCreates_map_create, hlen]
    · show countRemoves (st.events ++ new.map .create) =
        countRemoves st.events + ((current : Int) - target).toNat
      rw [countRemoves_append, countRemoves_map_create]
      omega
    · intro h; omega

end C1

/-- Counterexample to C1 exactly as stated: with the accepted configuration
`MIN_CONTAINERS = -5` the target `-2` is valid and in-bounds, the client is
connected and every runtime call succeeds, the delta is `-3`, and yet
`scale_set` performs only one remove (the second iteration raises
`NoRunningContainers`) and returns a 500 failure instead of three removes and
success. -/
theorem scale_set_negative_min_cex :
    cfgNeg.MIN_CONTAINERS ≤ -2 ∧ (-2 : Int) ≤ cfgNeg.MAX_CONTAINERS ∧
    stOne.client = true ∧ stOne.faults = [] ∧
    (get_running_count cfgNeg stOne : Int) - (-2) = 3 ∧
    (scale_set cfgNeg (some (.vint (-2))) stOne).1 = .err .noRunningContainers ∧
    SetResp.code (scale_set cfgNeg (some (.vint (-2))) stOne).1 = 500 ∧
    countRemoves (scale_set cfgNeg (some (.vint (-2))) stOne).2.events = 1 := by
  decide

/-- Witness for C1: at the default configuration, scaling the sample state
(2 running managed containers) to 4 issues exactly 2 creates and succeeds. -/
theorem scale_set_delta_reconciliation_witness :
    ∃ st', scale_set cfgW (some (.vint 4)) stW =
        (.success (get_running_count cfgW stW) (4 : Int).toNat, st') ∧
      countCreates st'.events = countCreates stW.events +
        ((4 : Int) - (get_running_count cfgW stW : Int)).toNat ∧
      countRemoves st'.events = countRemoves stW.events +
        ((get_running_count cfgW stW : Int) - 4).toNat ∧
      ((4 : Int) = (get_running_count cfgW stW : Int) → st' = stW) :=
  scale_set_delta_reconciliation cfgW stW 4 (by decide) (by decide) (by decide)
    (by decide) (by decide)

/-! ## Inversion lemmas for successful lifecycle calls -/

theorem create_container_ok_inv (cfg : Config) (st : SysState)
    (cc : Container) (st1 : SysState)
    (h : create_container cfg st = (.ok cc, st1)) :
    st.client = true ∧ cc = mkCreated cfg st ∧
    st1 = { st with containers := st.containers ++ [cc],
                    faults := st.faults.tail, times := st.times.tail,
                    events := st.events ++ [.create cc] } := by
  by_cases hc : st.client
  · by_cases hok : st.faults.headD true = true
    · rw [create_container_ok cfg st hc hok] at h
      obtain ⟨h1, h2⟩ := Prod.mk.injEq .. ▸ h
      have hcc : cc = mkCreated cfg st := by
        cases h1; rfl
      subst hcc
      exact ⟨hc, rfl, h2.symm⟩
    · rw [create_container_fail cfg st hc (by simpa using hok)] at h
      simp at h
  · have hc' : st.client = false := by simpa using hc
    simp [create_container, hc'] at h

theorem remove_container_ok_inv (cfg : Config) (st : SysState)
    (nm : String) (st1 : SysState)
    (h : remove_container cfg st = (.ok nm, st1)) :
    st.client = true ∧ st1.client = true ∧
    st1.containers.countP (isRunningManaged cfg) + 1 =
      st.containers.countP (isRunningManaged cfg) ∧
    ∃ x, (st.containers.filter (isRunningManaged cfg)).getLast? = some x ∧
      nm = x.name ∧ x ∈ st.containers ∧ isRunningManaged cfg x = true := by
  by_cases hc : st.client
  · cases hgl : (st.containers.filter (isRunningManaged cfg)).getLast? with
    | none =>
      have hemp : (get_managed_containers cfg st).filter
          (fun c => c.status == "running") = [] := by
        rw [running_filter_eq cfg st hc]
        exact List.getLast?_eq_none_iff.mp hgl
      rw [remove_container_noRunning cfg st hc hemp] at h
      simp at h
    | some x =>
      by_cases h1 : st.faults.headD true = true
      · by_cases h2 : st.faults.tail.headD true = true
        · obtain ⟨A, B, hl, hB, hqx, hstep⟩ :=
            remove_container_ok cfg st x hc hgl h1 h2
          rw [hstep] at h
          obtain ⟨hnm, hst1⟩ := Prod.mk.injEq .. ▸ h
          have hnm' : nm = x.name := by cases hnm; rfl
          refine ⟨hc, ?_, ?_, ⟨x, rfl, hnm', ?_, hqx⟩⟩
          · rw [← hst1]
            exact hc
          · rw [← hst1]
            simp only
            rw [hl]
            simp [List.countP_append, List.countP_cons, hqx]
            omega
          · rw [hl]
            exact List.mem_append.mpr (Or.inr (List.mem_cons_self ..))
        · obtain ⟨A, B, hl, hB, hqx, hstep⟩ :=
            remove_container_removeFail cfg st x hc hgl h1 (by simpa using h2)
          rw [hstep] at h
          simp at h
      · rw [remove_container_stopFail cfg st x hc hgl (by simpa using h1)] at h
        simp at h
  · have hc' : st.client = false := by simpa using hc
    rw [remove_container_disconnected cfg st hc'] at h
    simp at h

section C2

/-- **C2**: whenever the bound check rejects a single-step scale request —
`scale_up` with `current ≥ MAX_CONTAINERS`, or `scale_down` with
`current ≤ MIN_CONTAINERS` — the handler performs no create or remove
operation (the state is returned unchanged) and answers a 400 failure whose
`current_count` equals the count read before the check. -/
theorem scale_bounds_reject_noop (cfg : Config) (st : SysState) :
    ((get_running_count cfg st : Int) ≥ cfg.MAX_CONTAINERS →
      scale_up cfg st = (.atMax (get_running_count cfg st), st) ∧
      UpResp.code (.atMax (get_running_count cfg st)) = 400) ∧
    ((get_running_count cfg st : Int) ≤ cfg.MIN_CONTAINERS →
      scale_down cfg st = (.atMin (get_running_count cfg st), st) ∧
      DownResp.code (.atMin (get_running_count cfg st)) = 400) := by
  constructor
  · intro h
    refine ⟨?_, rfl⟩
    simp only [scale_up]
    rw [if_pos h]
  · intro h
    refine ⟨?_, rfl⟩
    simp only [scale_down]
    rw [if_pos h]

/-- Witness for C2: with `MIN_CONTAINERS = MAX_CONTAINERS = 2` and two running
managed containers, both `scale_up` and `scale_down` are rejected with a 400
response carrying the pre-check count and an unchanged state. -/
theorem scale_bounds_reject_noop_witness :
    (scale_up cfgTight stW = (.atMax (get_running_count cfgTight stW), stW) ∧
      UpResp.code (.atMax (get_running_count cfgTight stW)) = 400) ∧
    (scale_down cfgTight stW = (.atMin (get_running_count cfgTight stW), stW) ∧
      DownResp.code (.atMin (get_running_count cfgTight stW)) = 400) :=
  ⟨(scale_bounds_reject_noop cfgTight stW).1 (by decide),
   (scale_bounds_reject_noop cfgTight stW).2 (by decide)⟩

end C2

section C4

/-- **C4**: in the sequential model (no concurrent interference), a successful
`scale_up` answers `current_count = previous_count + 1` and a successful
`scale_down` answers `current_count = previous_count - 1` (with
`previous_count ≥ 1`), where `previous_count` is the running count read before
the mutation and `current_count` the re-read count after it. -/
theorem scale_step_count_change (cfg : Config) (st : SysState) :
    (∀ nm p c st', scale_up cfg st = (.success nm p c, st') → c = p + 1) ∧
    (∀ nm p c st', scale_down cfg st = (.success nm p c, st') →
      1 ≤ p ∧ c = p - 1) := by
  constructor
  · intro nm p c st' h
    simp only [scale_up] at h
    by_cases hb : (get_running_count cfg st : Int) ≥ cfg.MAX_CONTAINERS
    · rw [if_pos hb] at h
      simp at h
    · rw [if_neg hb] at h
      cases hcc : create_container cfg st with
      | mk res st1 =>
        cases res with
        | error e =>
          rw [hcc] at h
          simp at h
        | ok cc =>
          rw [hcc] at h
          simp only at h
          obtain ⟨hr, hst'⟩ := Prod.mk.injEq .. ▸ h
          obtain ⟨hc, hcceq, hst1⟩ := create_container_ok_inv cfg st cc st1 hcc
          have hp : p = get_running_count cfg st := by
            cases hr; rfl
          have hccount : c = get_running_count cfg st1 := by
            cases hr; rfl
          subst hp hcceq
          rw [hccount, hst1,
            get_running_count_eq_countP _ _ (by simpa using hc),
            get_running_count_eq_countP _ _ hc]
          simp [List.countP_append, isRunningManaged_mkCreated]
  · intro nm p c st' h
    simp only [scale_down] at h
    by_cases hb : (get_running_count cfg st : Int) ≤ cfg.MIN_CONTAINERS
    · rw [if_pos hb] at h
      simp at h
    · rw [if_neg hb] at h
      cases hrc : remove_container cfg st with
      | mk res st1 =>
        cases res with
        | error e =>
          rw [hrc] at h
          simp at h
        | ok nm1 =>
          rw [hrc] at h
          simp only at h
          obtain ⟨hr, hst'⟩ := Prod.mk.injEq .. ▸ h
          obtain ⟨hc, hc1, hcnt, -⟩ := remove_container_ok_inv cfg st nm1 st1 hrc
          have hp : p = get_running_count cfg st := by
            cases hr; rfl
          have hccount : c = get_running_count cfg st1 := by
            cases hr; rfl
          rw [get_running_count_eq_countP _ _ hc] at hp
          rw [hccount, get_running_count_eq_countP _ _ hc1]
          omega

/-- Witness for C4: on the sample state (2 running managed containers), the
successful `scale_up` reports 3 = 2 + 1 and the successful `scale_down`
reports 1 = 2 - 1. -/
theorem scale_step_count_change_witness :
    (3 : Nat) = 2 + 1 ∧ (1 ≤ (2 : Nat) ∧ (1 : Nat) = 2 - 1) :=
  ⟨(scale_step_count_change cfgW stW).1 "scaled_app_4_42" 2 3
      (scale_up cfgW stW).2 (by decide),
   (scale_step_count_change cfgW stW).2 "scaled_app_3_3" 2 1
      (scale_down cfgW stW).2 (by decide)⟩

end C4

section C3

/-- **C3**: with the runtime adapter available, `remove_container` fails with
`NoRunningContainers` and performs no runtime mutation when no running
prefix-matching container exists; otherwise it selects the last element of the
running-filtered inventory listing, stops it with a 10-unit grace period,
removes it (one container fewer, one fewer running), and returns that
container's name. -/
theorem remove_container_selection_spec (cfg : Config) (st : SysState)
    (hc : st.client = true) :
    ((get_managed_containers cfg st).filter
        (fun c => c.status == "running") = [] →
      remove_container cfg st = (.error .noRunningContainers, st)) ∧
    (∀ chosen, ((get_managed_containers cfg st).filter
        (fun c => c.status == "running")).getLast? = some chosen →
      st.faults.headD true = true → st.faults.tail.headD true = true →
      ∃ st', remove_container cfg st = (.ok chosen.name, st') ∧
        st'.events = st.events ++ [.stop chosen.name 10, .remove chosen.name] ∧
        st'.containers.length + 1 = st.containers.length ∧
        get_running_count cfg st' + 1 = get_running_count cfg st ∧
        chosen ∈ st.containers) := by
  constructor
  · intro hemp
    exact remove_container_noRunning cfg st hc hemp
  · intro chosen hgl h1 h2
    rw [running_filter_eq cfg st hc] at hgl
    obtain ⟨A, B, hl, hB, hqx, hstep⟩ :=
      remove_container_ok cfg st chosen hc hgl h1 h2
    refine ⟨{ st with containers := A ++ B, faults := st.faults.tail.tail, events := st.events ++ [.stop chosen.name 10, .remove chosen.name] }, hstep, rfl, ?_, ?_, ?_⟩
    · rw [hl]
      simp
      omega
    · have hrec := get_running_count_eq_countP cfg { st with containers := A ++ B, faults := st.faults.tail.tail, events := st.events ++ [.stop chosen.name 10, .remove chosen.name] } hc
      rw [hrec, get_running_count_eq_countP cfg st hc]
      simp only [hl]
      simp [List.countP_append, List.countP_cons, hqx]
      omega
    · rw [hl]
      exact List.mem_append.mpr (Or.inr (List.mem_cons_self ..))

/-- Witness for C3: on the sample state the victim is the last running managed
container `scaled_app_3_3`, and on a state with only an exited managed
container the call fails with `NoRunningContainers` leaving the state
untouched. -/
theorem remove_container_selection_spec_witness :
    remove_container cfgW stEmpty = (.error .noRunningContainers, stEmpty) ∧
    ∃ st', remove_container cfgW stW =
        (.ok (sampleC "scaled_app_3_3" "running").name, st') ∧
      st'.events = stW.events ++
        [.stop (sampleC "scaled_app_3_3" "running").name 10,
         .remove (sampleC "scaled_app_3_3" "running").name] ∧
      st'.containers.length + 1 = stW.containers.length ∧
      get_running_count cfgW st' + 1 = get_running_count cfgW stW ∧
      sampleC "scaled_app_3_3" "running" ∈ stW.containers :=
  ⟨(remove_container_selection_spec cfgW stEmpty (by decide)).1 (by decide),
   (remove_container_selection_spec cfgW stW (by decide)).2
     (sampleC "scaled_app_3_3" "running") (by decide) (by decide) (by decide)⟩

end C3

section C6

/-- **C6**: every container created by `create_container` is named
`{prefix}_{N+1}_{timestamp}` where `N` is the count of *all* prefix-matching
containers of any status at call time, and is launched detached with the
configured image and the fixed `managed_by` ownership label; the new container
is appended to the runtime inventory. -/
theorem create_container_naming_spec (cfg : Config) (st : SysState)
    (c : Container) (st' : SysState)
    (h : create_container cfg st = (.ok c, st')) :
    c.name = cfg.pfx ++ "_" ++
        toString ((get_managed_containers cfg st).length + 1) ++ "_" ++
        toString (st.times.headD 0) ∧
    c.status = "running" ∧ c.image = cfg.CONTAINER_IMAGE ∧ c.detach = true ∧
    c.labels = [("managed_by", "auto_scaler")] ∧
    st'.containers = st.containers ++ [c] := by
  obtain ⟨hc, hcc, hst'⟩ := create_container_ok_inv cfg st c st' h
  subst hcc
  subst hst'
  exact ⟨rfl, rfl, rfl, rfl, rfl, rfl⟩

/-- Witness for C6: on the sample state (3 managed containers of any status,
next timestamp 42) the created container is `scaled_app_4_42`, running,
detached, with the configured image and ownership label. -/
theorem create_container_naming_spec_witness :
    (sampleC "scaled_app_4_42" "running").name = cfgW.pfx ++ "_" ++
        toString ((get_managed_containers cfgW stW).length + 1) ++ "_" ++
        toString (stW.times.headD 0) ∧
    (sampleC "scaled_app_4_42" "running").status = "running" ∧
    (sampleC "scaled_app_4_42" "running").image = cfgW.CONTAINER_IMAGE ∧
    (sampleC "scaled_app_4_42" "running").detach = true ∧
    (sampleC "scaled_app_4_42" "running").labels =
      [("managed_by", "auto_scaler")] ∧
    (create_container cfgW stW).2.containers =
      stW.containers ++ [sampleC "scaled_app_4_42" "running"] :=
  create_container_naming_spec cfgW stW (sampleC "scaled_app_4_42" "running")
    (create_container cfgW stW).2 rfl

end C6

section C9

/-- **C9**: with the runtime adapter handle absent and a nonnegative
`MIN_CONTAINERS`, `scale_down` never reaches `remove_container` and never
surfaces a `RuntimeUnavailable` error: the inventory reader coerces the absent
adapter to an empty list, so the count is `0 ≤ MIN` and the handler returns
the minimum-limit 400 failure with `current_count = 0`, state unchanged. -/
theorem scale_down_disconnected_spec (cfg : Config) (st : SysState)
    (hc : st.client = false) (hmin : 0 ≤ cfg.MIN_CONTAINERS) :
    scale_down cfg st = (.atMin 0, st) ∧ DownResp.code (.atMin 0) = 400 := by
  have h0 : get_running_count cfg st = 0 :=
    get_running_count_disconnected cfg st hc
  refine ⟨?_, rfl⟩
  simp only [scale_down, h0]
  rw [if_pos (show ((0 : Nat) : Int) ≤ cfg.MIN_CONTAINERS by simpa using hmin)]

/-- Witness for C9: the sample state with the client handle absent. -/
theorem scale_down_disconnected_spec_witness :
    scale_down cfgW stDisc = (.atMin 0, stDisc) ∧
    DownResp.code (.atMin 0) = 400 :=
  scale_down_disconnected_spec cfgW stDisc (by decide) (by decide)

end C9

section C10

/-- **C10**: with a nonnegative `MIN_CONTAINERS`, the `NoRunningContainers`
branch of `remove_container` is unreachable from `scale_down`: passing the
bound check forces `count_running > MIN ≥ 0`, so the running-filtered list
inside `remove_container` is non-empty over the same snapshot. -/
theorem scale_down_noRunning_unreachable (cfg : Config) (st : SysState)
    (hmin : 0 ≤ cfg.MIN_CONTAINERS) :
    (scale_down cfg st).1 ≠ .err .noRunningContainers := by
  by_cases hc : st.client
  · by_cases hb : (get_running_count cfg st : Int) ≤ cfg.MIN_CONTAINERS
    · simp only [scale_down]
      rw [if_pos hb]
      simp
    · simp only [scale_down]
      rw [if_neg hb]
      have hcount : 0 < st.containers.countP (isRunningManaged cfg) := by
        have := get_running_count_eq_countP cfg st hc
        omega
      have hne : st.containers.filter (isRunningManaged cfg) ≠ [] := by
        intro h0
        rw [List.countP_eq_length_filter, h0] at hcount
        simp at hcount
      obtain ⟨x, hx⟩ : ∃ x,
          (st.containers.filter (isRunningManaged cfg)).getLast? = some x := by
        cases h' : (st.containers.filter (isRunningManaged cfg)).getLast? with
        | none => exact absurd (List.getLast?_eq_none_iff.mp h') hne
        | some x => exact ⟨x, rfl⟩
      by_cases h1 : st.faults.headD true = true
      · by_cases h2 : st.faults.tail.headD true = true
        · obtain ⟨A, B, hl, hB, hqx, hstep⟩ :=
            remove_container_ok cfg st x hc hx h1 h2
          rw [hstep]
          simp
        · obtain ⟨A, B, hl, hB, hqx, hstep⟩ :=
            remove_container_removeFail cfg st x hc hx h1 (by simpa using h2)
          rw [hstep]
          simp
      · rw [remove_container_stopFail cfg st x hc hx (by simpa using h1)]
        simp
  · have hc' : st.client = false := by simpa using hc
    have h0 := get_running_count_disconnected cfg st hc'
    simp only [scale_down, h0]
    rw [if_pos (show ((0 : Nat) : Int) ≤ cfg.MIN_CONTAINERS by simpa using hmin)]
    simp

/-- Witness for C10 at the sample state. -/
theorem scale_down_noRunning_unreachable_witness :
    (scale_down cfgW stW).1 ≠ .err .noRunningContainers :=
  scale_down_noRunning_unreachable cfgW stW (by decide)

end C10

section C7

/-- Counterexample to C7 as stated: a non-numeric `count` (the string
`"abc"`) makes `scale_set` fail with zero runtime operations, but the
`ValueError` raised by `int(...)` escapes to the generic exception handler
and is reported as HTTP 500 — not as a 400 validation failure. -/
theorem scale_set_nonnumeric_cex :
    scale_set cfgW (some (.vstr "abc")) stW = (.err .valueError, stW) ∧
    SetResp.code (scale_set cfgW (some (.vstr "abc")) stW).1 = 500 ∧
    SetResp.code (scale_set cfgW (some (.vstr "abc")) stW).1 ≠ 400 := by
  refine ⟨?_, ?_, ?_⟩ <;> decide

/-- **C7** (amended): `scale_set` validates the target before any runtime
call and performs zero create/remove operations on a bad `count`; a missing
field is answered with the 400 `InvalidInput` failure, while a non-numeric
value (one `int(...)` cannot parse) raises `ValueError` inside the handler
and is answered as a 500 failure, the state unchanged in both cases. -/
theorem scale_set_validation_amended (cfg : Config) (st : SysState) :
    (scale_set cfg none st = (.missingCount, st) ∧
      SetResp.code .missingCount = 400) ∧
    (∀ s : String, pyStrToInt? s = none →
      scale_set cfg (some (.vstr s)) st = (.err .valueError, st) ∧
      SetResp.code (.err .valueError) = 500) := by
  refine ⟨⟨rfl, rfl⟩, ?_⟩
  intro s hs
  refine ⟨?_, rfl⟩
  simp only [scale_set, pyInt, hs]

/-- Witness for the amended C7 at the unparsable string `"abc"`. -/
theorem scale_set_validation_amended_witness :
    scale_set cfgTight (some (.vstr "abc")) stW = (.err .valueError, stW) ∧
    SetResp.code (.err .valueError) = 500 :=
  (scale_set_validation_amended cfgTight stW).2 "abc" (by decide)

end C7

section C8

/-- **C8**: every operation sees only prefix-matching containers: the
inventory reader returns only prefix-matching names; appending a container
whose name lacks the prefix changes neither the enumeration nor the running
count, whatever its labels; `create_container` and `remove_container` leave
the non-prefix part of the inventory untouched in every outcome; and the
victim of a successful `remove_container` is always a running prefix-matching
container of the original inventory. -/
theorem prefix_only_invariant (cfg : Config) (st : SysState) :
    (∀ c ∈ get_managed_containers cfg st,
      strStartsWith c.name cfg.pfx = true) ∧
    (∀ c, strStartsWith c.name cfg.pfx = false →
      get_managed_containers cfg { st with containers := st.containers ++ [c] }
          = get_managed_containers cfg st ∧
      get_running_count cfg { st with containers := st.containers ++ [c] }
          = get_running_count cfg st) ∧
    (∀ r st', create_container cfg st = (r, st') →
      st'.containers.filter (fun c => !strStartsWith c.name cfg.pfx) =
        st.containers.filter (fun c => !strStartsWith c.name cfg.pfx)) ∧
    (∀ r st', remove_container cfg st = (r, st') →
      st'.containers.filter (fun c => !strStartsWith c.name cfg.pfx) =
        st.containers.filter (fun c => !strStartsWith c.name cfg.pfx)) ∧
    (∀ nm st', remove_container cfg st = (.ok nm, st') →
      ∃ x ∈ st.containers, nm = x.name ∧
        strStartsWith x.name cfg.pfx = true ∧ x.status = "running") := by
  refine ⟨?_, ?_, ?_, ?_, ?_⟩
  · intro c hcm
    cases hcl : st.client with
    | false =>
      rw [get_managed_containers, hcl] at hcm
      simp at hcm
    | true =>
      rw [get_managed_eq cfg st hcl] at hcm
      exact (List.mem_filter.mp hcm).2
  · intro c hnp
    by_cases hcl : st.client = true
    · have hman :
          get_managed_containers cfg { st with containers := st.containers ++ [c] }
            = get_managed_containers cfg st := by
        rw [get_managed_eq cfg st hcl,
          get_managed_eq cfg { st with containers := st.containers ++ [c] } hcl]
        simp [List.filter_append, hnp]
      exact ⟨hman, by rw [get_running_count, get_running_count, hman]⟩
    · have hcl' : st.client = false := by simpa using hcl
      constructor
      · simp [get_managed_containers, hcl']
      · simp [get_running_count, get_managed_containers, hcl']
  · intro r st' h
    by_cases hc : st.client
    · by_cases hok : st.faults.headD true = true
      · rw [create_container_ok cfg st hc hok] at h
        obtain ⟨-, hst'⟩ := Prod.mk.injEq .. ▸ h
        rw [← hst']
        simp only
        have hx : strStartsWith (mkCreated cfg st).name cfg.pfx = true :=
          strStartsWith_append4 ..
        simp [List.filter_append, hx]
      · rw [create_container_fail cfg st hc (by simpa using hok)] at h
        obtain ⟨-, hst'⟩ := Prod.mk.injEq .. ▸ h
        rw [← hst']
    · have hc' : st.client = false := by simpa using hc
      have hdc : create_container cfg st = (.error .dockerUnavailable, st) := by
        simp [create_container, hc']
      rw [hdc] at h
      obtain ⟨-, hst'⟩ := Prod.mk.injEq .. ▸ h
      rw [← hst']
  · intro r st' h
    by_cases hc : st.client
    · cases hgl : (st.containers.filter (isRunningManaged cfg)).getLast? with
      | none =>
        have hemp : (get_managed_containers cfg st).filter
            (fun c => c.status == "running") = [] := by
          rw [running_filter_eq cfg st hc]
          exact List.getLast?_eq_none_iff.mp hgl
        rw [remove_container_noRunning cfg st hc hemp] at h
        obtain ⟨-, hst'⟩ := Prod.mk.injEq .. ▸ h
        rw [← hst']
      | some x =>
        by_cases h1 : st.faults.headD true = true
        · by_cases h2 : st.faults.tail.headD true = true
          · obtain ⟨A, B, hl, hB, hqx, hstep⟩ :=
              remove_container_ok cfg st x hc hgl h1 h2
            rw [hstep] at h
            obtain ⟨-, hst'⟩ := Prod.mk.injEq .. ▸ h
            rw [← hst']
            simp only
            have hpfx : strStartsWith x.name cfg.pfx = true := by
              rw [isRunningManaged, Bool.and_eq_true] at hqx
              exact hqx.2
            rw [hl]
            simp [List.filter_append, List.filter_cons, hpfx]
          · obtain ⟨A, B, hl, hB, hqx, hstep⟩ :=
              remove_container_removeFail cfg st x hc hgl h1 (by simpa using h2)
            rw [hstep] at h
            obtain ⟨-, hst'⟩ := Prod.mk.injEq .. ▸ h
            rw [← hst']
            simp only
            have hpfx : strStartsWith x.name cfg.pfx = true := by
              rw [isRunningManaged, Bool.and_eq_true] at hqx
              exact hqx.2
            rw [hl]
            simp [List.filter_append, List.filter_cons, hpfx]
        · rw [remove_container_stopFail cfg st x hc hgl (by simpa using h1)] at h
          obtain ⟨-, hst'⟩ := Prod.mk.injEq .. ▸ h
          rw [← hst']
    · have hc' : st.client = false := by simpa using hc
      rw [remove_container_disconnected cfg st hc'] at h
      obtain ⟨-, hst'⟩ := Prod.mk.injEq .. ▸ h
      rw [← hst']
  · intro nm st' h
    obtain ⟨-, -, -, x, -, hnm, hxm, hqx⟩ :=
      remove_container_ok_inv cfg st nm st' h
    rw [isRunningManaged, Bool.and_eq_true] at hqx
    exact ⟨x, hxm, hnm, hqx.2, by simpa using hqx.1⟩

/-- Witness for C8: enumeration of the sample state yields only
prefix-matching names, and a successful create leaves the non-prefix part of
the inventory unchanged. -/
theorem prefix_only_invariant_witness :
    strStartsWith (sampleC "scaled_app_1_1" "running").name cfgW.pfx = true ∧
    (create_container cfgW stW).2.containers.filter
        (fun c => !strStartsWith c.name cfgW.pfx) =
      stW.containers.filter (fun c => !strStartsWith c.name cfgW.pfx) :=
  ⟨(prefix_only_invariant cfgW stW).1 (sampleC "scaled_app_1_1" "running")
      (by decide),
   (prefix_only_invariant cfgW stW).2.2.1
      (.ok (sampleC "scaled_app_4_42" "running"))
      (create_container cfgW stW).2 rfl⟩

end C8

section C5

/-- Run of `removeLoop` whose `(k+1)`-th call fails at the `remove` step,
after its `stop` step succeeded: the `k` completed removals stay gone, the
`(k+1)`-th victim is left stopped (status `exited`) but still present, and the
loop aborts with `RemoveFailed`. -/
theorem removeLoop_partial2 (cfg : Config) (k : Nat) :
    ∀ (n : Nat) (st : SysState) (rest : List Bool), st.client = true →
    st.faults = List.replicate (2 * k) true ++ true :: false :: rest →
    k < n → k < st.containers.countP (isRunningManaged cfg) →
    ∃ st', removeLoop cfg n st = (.error .removeFailed, st') ∧
      st'.client = true ∧ st'.faults = rest ∧ st'.times = st.times ∧
      st'.containers.countP (isRunningManaged cfg) + k + 1 =
        st.containers.countP (isRunningManaged cfg) ∧
      st'.containers.length + k = st.containers.length ∧
      countRemoves st'.events = countRemoves st.events + k ∧
      countCreates st'.events = countCreates st.events := by
  induction k with
  | zero =>
    intro n st rest hc hf hk hcount
    match n, hk with
    | n + 1, _ =>
      have hne : st.containers.filter (isRunningManaged cfg) ≠ [] := by
        intro h0
        rw [List.countP_eq_length_filter, h0] at hcount
        simp at hcount
      obtain ⟨x, hx⟩ : ∃ x,
          (st.containers.filter (isRunningManaged cfg)).getLast? = some x := by
        cases h' : (st.containers.filter (isRunningManaged cfg)).getLast? with
        | none => exact absurd (List.getLast?_eq_none_iff.mp h') hne
        | some x => exact ⟨x, rfl⟩
      have h1 : st.faults.headD true = true := by rw [hf]; rfl
      have h2 : st.faults.tail.headD true = false := by rw [hf]; rfl
      obtain ⟨A, B, hl, hB, hqx, hstep⟩ :=
        remove_container_removeFail cfg st x hc hx h1 h2
      rw [hf] at hstep
      have hqx' : isRunningManaged cfg { x with status := "exited" } = false := by
        show (("exited" == "running") && strStartsWith x.name cfg.pfx) = false
        rfl
      refine ⟨{ st with containers := A ++ { x with status := "exited" } :: B, faults := rest, events := st.events ++ [.stop x.name 10] }, ?_, hc, rfl, rfl, ?_, ?_, ?_, ?_⟩
      · rw [removeLoop, hstep]
        rfl
      · simp only
        rw [hl]
        simp [List.countP_append, List.countP_cons, hqx, hqx']
        omega
      · simp only
        rw [hl]
        simp
      · show countRemoves (st.events ++ [.stop x.name 10]) =
          countRemoves st.events + 0
        rw [countRemoves_append]
        rfl
      · show countCreates (st.events ++ [.stop x.name 10]) =
          countCreates st.events
        rw [countCreates_append]
        rfl
  | succ k ih =>
    intro n st rest hc hf hk hcount
    match n, hk with
    | n + 1, hk =>
      have hf2 : st.faults =
          true :: true ::
            (List.replicate (2 * k) true ++ true :: false :: rest) := by
        rw [hf]
        have h2k : 2 * (k + 1) = 2 * k + 1 + 1 := by omega
        rw [h2k, List.replicate_succ, List.replicate_succ]
        simp
      have hne : st.containers.filter (isRunningManaged cfg) ≠ [] := by
        intro h0
        rw [List.countP_eq_length_filter, h0] at hcount
        simp at hcount
      obtain ⟨x, hx⟩ : ∃ x,
          (st.containers.filter (isRunningManaged cfg)).getLast? = some x := by
        cases h' : (st.containers.filter (isRunningManaged cfg)).getLast? with
        | none => exact absurd (List.getLast?_eq_none_iff.mp h') hne
        | some x => exact ⟨x, rfl⟩
      have h1 : st.faults.headD true = true := by rw [hf2]; rfl
      have h2 : st.faults.tail.headD true = true := by rw [hf2]; rfl
      obtain ⟨A, B, hl, hB, hqx, hstep⟩ :=
        remove_container_ok cfg st x hc hx h1 h2
      rw [hf2] at hstep
      simp only [List.tail_cons] at hstep
      have hcount' : st.containers.countP (isRunningManaged cfg) =
          (A ++ B).countP (isRunningManaged cfg) + 1 := by
        rw [hl]
        simp [List.countP_append, List.countP_cons, hqx]
        omega
      obtain ⟨st', hloop, hc', hf', ht', hcnt', hlen', hcr', hcc'⟩ := ih n
        { st with containers := A ++ B,
                  faults := List.replicate (2 * k) true ++ true :: false :: rest,
                  events := st.events ++ [.stop x.name 10, .remove x.name] }
        rest hc rfl (by omega)
        (by
          show k < (A ++ B).countP (isRunningManaged cfg)
          omega)
      refine ⟨st', ?_, hc', hf', by simpa using ht', ?_, ?_, ?_, ?_⟩
      · rw [removeLoop, hstep]
        dsimp only
        exact hloop
      · simp only at hcnt'
        omega
      · have hl' : (A ++ B).length + 1 = st.containers.length := by
          rw [hl]; simp; omega
        simp only at hlen'
        omega
      · rw [hcr']
        simp only
        simp [countRemoves, List.countP_append]
        omega
      · rw [hcc']
        simp [countCreates, List.countP_append]

/-- **C5**: if any create or remove call in a `scale_set` sequence fails
partway, the creates/removes already completed before the failure remain in
effect (no rollback) and the operation returns a 500 failure. Three failure
modes cover every runtime call of the sequence: the `(k+1)`-th create's `run`
call fails (the `k` containers already created remain appended); the
`(k+1)`-th remove fails at its `stop` call (the `k` containers already
removed stay gone, nothing else changes); the `(k+1)`-th remove fails at its
`remove` call after a successful `stop` (the `k` removed containers stay
gone and the stopped victim remains, no longer running). -/
theorem scale_set_partial_failure_no_rollback (cfg : Config) (st : SysState)
    (target : Int) (k : Nat) (rest : List Bool)
    (hclient : st.client = true)
    (hlo : cfg.MIN_CONTAINERS ≤ target) (hhi : target ≤ cfg.MAX_CONTAINERS) :
    (st.faults = List.replicate k true ++ false :: rest →
      (k : Int) < target - (get_running_count cfg st : Int) →
      ∃ new st', new.length = k ∧
        scale_set cfg (some (.vint target)) st = (.err .createFailed, st') ∧
        SetResp.code (.err .createFailed) = 500 ∧
        st'.containers = st.containers ++ new ∧
        countCreates st'.events = countCreates st.events + k) ∧
    (st.faults = List.replicate (2 * k) true ++ false :: rest →
      (k : Int) < (get_running_count cfg st : Int) - target →
      (k : Int) < (get_running_count cfg st : Int) →
      ∃ st', scale_set cfg (some (.vint target)) st = (.err .removeFailed, st') ∧
        SetResp.code (.err .removeFailed) = 500 ∧
        st'.containers.length + k = st.containers.length ∧
        get_running_count cfg st' + k = get_running_count cfg st ∧
        countRemoves st'.events = countRemoves st.events + k) ∧
    (st.faults = List.replicate (2 * k) true ++ true :: false :: rest →
      (k : Int) < (get_running_count cfg st : Int) - target →
      (k : Int) < (get_running_count cfg st : Int) →
      ∃ st', scale_set cfg (some (.vint target)) st = (.err .removeFailed, st') ∧
        SetResp.code (.err .removeFailed) = 500 ∧
        st'.containers.length + k = st.containers.length ∧
        get_running_count cfg st' + k + 1 = get_running_count cfg st ∧
        countRemoves st'.events = countRemoves st.events + k) := by
  have hbound : ¬(target < cfg.MIN_CONTAINERS ∨ target > cfg.MAX_CONTAINERS) := by
    omega
  set current := get_running_count cfg st with hcur
  have hcntP := get_running_count_eq_countP cfg st hclient
  refine ⟨?_, ?_, ?_⟩
  · intro hf hk
    obtain ⟨new, hlen, hloop⟩ := createLoop_partial cfg k
      (target - (current : Int)).toNat st rest hclient hf (by omega)
    refine ⟨new, { st with containers := st.containers ++ new, faults := rest, times := st.times.drop (k + 1), events := st.events ++ new.map .create }, hlen, ?_, rfl, rfl, ?_⟩
    · simp only [scale_set, pyInt]
      rw [if_neg hbound]
      rw [if_pos (by omega : target - (current : Int) > 0)]
      rw [hloop]
    · show countCreates (st.events ++ new.map .create) =
        countCreates st.events + k
      rw [countCreates_append, countCreates_map_create, hlen]
  · intro hf hk hkcur
    obtain ⟨st', hloop, hc', hf', ht', hcnt', hlen', hcr', hcc'⟩ :=
      removeLoop_partial cfg k (target - (current : Int)).natAbs st rest
        hclient hf (by omega) (by omega)
    refine ⟨st', ?_, rfl, by omega, ?_, by omega⟩
    · simp only [scale_set, pyInt]
      rw [if_neg hbound]
      rw [if_neg (by omega : ¬target - (current : Int) > 0)]
      rw [if_pos (by omega : target - (current : Int) < 0)]
      rw [hloop]
    · rw [get_running_count_eq_countP cfg st' hc']
      omega
  · intro hf hk hkcur
    obtain ⟨st', hloop, hc', hf', ht', hcnt', hlen', hcr', hcc'⟩ :=
      removeLoop_partial2 cfg k (target - (current : Int)).natAbs st rest
        hclient hf (by omega) (by omega)
    refine ⟨st', ?_, rfl, by omega, ?_, by omega⟩
    · simp only [scale_set, pyInt]
      rw [if_neg hbound]
      rw [if_neg (by omega : ¬target - (current : Int) > 0)]
      rw [if_pos (by omega : target - (current : Int) < 0)]
      rw [hloop]
    · rw [get_running_count_eq_countP cfg st' hc']
      omega

/-- Witness for C5, one instantiation per failure mode: scaling the sample
state (2 running) to 5 with the second `run` call failing keeps the one
created container and reports a 500 create failure; scaling it to the
in-bounds negative target -2 (under the negative-minimum configuration) with
the very first `stop` call failing removes nothing and reports a 500 remove
failure; scaling it to 1 with the first `remove` call failing after its
successful `stop` leaves the stopped victim present but not running. -/
theorem scale_set_partial_failure_no_rollback_witness :
    (∃ new st', new.length = 1 ∧
      scale_set cfgW (some (.vint 5)) stWA = (.err .createFailed, st') ∧
      SetResp.code (.err .createFailed) = 500 ∧
      st'.containers = stWA.containers ++ new ∧
      countCreates st'.events = countCreates stWA.events + 1) ∧
    (∃ st', scale_set cfgNeg (some (.vint (-2))) stWB =
        (.err .removeFailed, st') ∧
      SetResp.code (.err .removeFailed) = 500 ∧
      st'.containers.length + 0 = stWB.containers.length ∧
      get_running_count cfgNeg st' + 0 = get_running_count cfgNeg stWB ∧
      countRemoves st'.events = countRemoves stWB.events + 0) ∧
    (∃ st', scale_set cfgW (some (.vint 1)) stWA = (.err .removeFailed, st') ∧
      SetResp.code (.err .removeFailed) = 500 ∧
      st'.containers.length + 0 = stWA.containers.length ∧
      get_running_count cfgW st' + 0 + 1 = get_running_count cfgW stWA ∧
      countRemoves st'.events = countRemoves stWA.events + 0) :=
  ⟨(scale_set_partial_failure_no_rollback cfgW stWA 5 1 [] (by decide)
      (by decide) (by decide)).1 (by decide) (by decide),
   (scale_set_partial_failure_no_rollback cfgNeg stWB (-2) 0 [] (by decide)
      (by decide) (by decide)).2.1 (by decide) (by decide) (by decide),
   (scale_set_partial_failure_no_rollback cfgW stWA 1 0 [] (by decide)
      (by decide) (by decide)).2.2 (by decide) (by decide) (by decide)⟩

end C5
